import Mathlib

/-
Verification of the order-tracking dashboard page
(src/src/app/orders/tracking-orders/page.tsx).

The development shallowly embeds the data model and the operations of the
page: the visibility filter applied to the live order subscription, the
search filter, the tracking-projection upsert (saveTrackingOrder), and the
status-update transaction (handleStatusUpdate).  Timestamps are modeled as
natural numbers; every call of the form new Date() or serverTimestamp()
inside one operation is modeled by a single time parameter passed to the
operation.  Firestore collections are modeled as lists of documents, and
the transactional primitive runTransaction is modeled as: run the body as
a pure computation producing either an error or a buffered write set, and
apply the write set atomically on success, leaving the state untouched on
error (rollback).
-/

/-- A line item of an order, matching the items array of the Order
interface in the page. -/
structure OrderItem where
  cartId : String
  productSize : String
  productVarieties : List String
  productQuantity : Nat
  productPrice : Nat
deriving Repr, DecidableEq

/-- Resolved customer details attached to an order by fetchUserDetails. -/
structure UserDetails where
  firstName : String
  lastName : String
deriving Repr, DecidableEq

/-- The orderDetails field of an order document. -/
structure OrderDetails where
  pickupTime : String
  pickupDate : String
  status : String
  totalAmount : Nat
  paymentMethod : String
  paymentStatus : Option String
  createdAt : Nat
  updatedAt : Option Nat
deriving Repr, DecidableEq

/-- An order as loaded in the component state: the document data enriched
with resolved user details, plus whether a document reference is attached
(the ref field may be absent). -/
structure Order where
  id : String
  userId : String
  userDetails : Option UserDetails
  orderDetails : OrderDetails
  items : List OrderItem
  hasRef : Bool
deriving Repr, DecidableEq

/-- The visibility filter applied to the snapshot listener result: for
GCash payments only approved orders are shown; otherwise all orders except
pending ones are shown. -/
def visibilityFilter (order : Order) : Bool :=
  if order.orderDetails.paymentMethod == "GCash" then
    order.orderDetails.paymentStatus == some "approved"
  else
    order.orderDetails.paymentStatus != some "pending"

/-- Lower-casing of a string, modeling the JavaScript toLowerCase call. -/
def jsToLower (s : String) : String :=
  ⟨s.data.map Char.toLower⟩

/-- Substring containment, modeling the JavaScript String.includes call. -/
def jsIncludes (s target : String) : Bool :=
  decide (target.data <:+: s.data)

/-- The resolved display name of an order: first name, space, last name,
or the placeholder when no user details were resolved.  The page uses this
shape both in the search filter and when writing sales and tracking
records. -/
def resolvedName : Option UserDetails → String
  | some ud => ud.firstName ++ " " ++ ud.lastName
  | none => "Unknown"

/-- The search predicate of the page: the lower-cased order id contains
the lower-cased term, or user details are present and the lower-cased full
name contains the lower-cased term. -/
def matchesSearch (searchTerm : String) (order : Order) : Bool :=
  jsIncludes (jsToLower order.id) (jsToLower searchTerm) ||
    (match order.userDetails with
     | some ud =>
         jsIncludes (jsToLower (ud.firstName ++ " " ++ ud.lastName))
           (jsToLower searchTerm)
     | none => false)

/-- The filteredOrders computation of the page: keep the orders matching
the search term. -/
def search (orders : List Order) (searchTerm : String) : List Order :=
  orders.filter (matchesSearch searchTerm)

/-- A document of the tracking_orders collection, as written by
saveTrackingOrder.  The createdAt and updatedAt fields are the stored
timestamps of the document. -/
structure TrackingOrderDoc where
  orderId : String
  userId : String
  customerName : String
  paymentStatus : String
  orderStatus : String
  paymentMethodT : String
  createdAt : Nat
  updatedAt : Nat
  pickupTime : String
  pickupDate : String
  totalAmount : Nat
  items : List OrderItem
deriving Repr, DecidableEq

/-- The trackingOrder object built at the top of saveTrackingOrder: every
field is derived from the order, createdAt is new Date of the order
creation field, and updatedAt is the current time. -/
def mkTrackingOrder (order : Order) (now : Nat) : TrackingOrderDoc :=
  { orderId := order.id
    userId := order.userId
    customerName := resolvedName order.userDetails
    paymentMethodT := order.orderDetails.paymentMethod
    paymentStatus := (order.orderDetails.paymentStatus).getD "unknown"
    orderStatus :=
      if order.orderDetails.status == "" then "unknown"
      else order.orderDetails.status
    createdAt := order.orderDetails.createdAt
    updatedAt := now
    pickupTime := order.orderDetails.pickupTime
    pickupDate := order.orderDetails.pickupDate
    totalAmount := order.orderDetails.totalAmount
    items := order.items }

/-- Replace the first element satisfying the predicate, used to model an
updateDoc on the first document of a query snapshot. -/
def updateFirst (p : α → Bool) (f : α → α) : List α → List α
  | [] => []
  | x :: xs => if p x then f x :: xs else x :: updateFirst p f xs

/-- saveTrackingOrder: query tracking_orders for the order id; if the
snapshot is empty, add a new document whose createdAt and updatedAt are
both the server timestamp; otherwise update the first document of the
snapshot with every field of the trackingOrder object, with updatedAt
replaced by the server timestamp (the spread also carries the createdAt
field computed from the order). -/
def saveTrackingOrder (tracking : List TrackingOrderDoc) (order : Order)
    (now : Nat) : List TrackingOrderDoc :=
  let t := mkTrackingOrder order now
  if tracking.find? (fun e => e.orderId == order.id) = none then
    tracking ++ [{ t with createdAt := now, updatedAt := now }]
  else
    updateFirst (fun e => e.orderId == order.id)
      (fun _ => { t with updatedAt := now }) tracking

/-- A concrete line item requesting 3 of size Large, variety Ube. -/
def cItem1 : OrderItem :=
  { cartId := "c1", productSize := "Large"
    productVarieties := ["Ube"], productQuantity := 3
    productPrice := 100 }

/-- A concrete order used in counterexamples and witnesses: creation
field 5, paid in cash, one line item requesting 3 of size Large,
variety Ube. -/
def cOrd : Order :=
  { id := "ord1"
    userId := "u1"
    userDetails := some { firstName := "Ana", lastName := "Cruz" }
    orderDetails :=
      { pickupTime := "10:00"
        pickupDate := "2025-01-02"
        status := "Order Confirmed"
        totalAmount := 300
        paymentMethod := "Cash"
        paymentStatus := none
        createdAt := 5
        updatedAt := none }
    items := [cItem1]
    hasRef := true }

/-- A document of the stocks collection. -/
structure StockDoc where
  id : String
  sizeName : String
  varieties : List String
  quantity : Nat
  lastUpdated : Nat
deriving Repr, DecidableEq

/-- A document of the stockHistory collection, as written by the Ready
for Pickup branch of the transaction. -/
structure StockHistoryEntry where
  varieties : List String
  sizeName : String
  type : String
  quantity : Nat
  previousStock : Nat
  currentStock : Nat
  date : Nat
  updatedBy : String
  remarks : String
  stockId : String
  isDeleted : Bool
deriving Repr, DecidableEq

/-- A line of the items array of a sales document. -/
structure SaleItem where
  size : String
  varieties : List String
  quantity : Nat
  price : Nat
  subtotal : Nat
deriving Repr, DecidableEq

/-- A document of the sales collection, as written by the Completed
branch of the transaction. -/
structure SaleRecord where
  orderId : String
  amount : Nat
  date : Nat
  saleItems : List SaleItem
  salePaymentMethod : String
  customerName : String
deriving Repr, DecidableEq

/-- The part of an order document that the transaction reads and writes:
the document is read through transaction.get to check existence, and the
update touches the status, updatedAt and (for completion) completedAt
fields of orderDetails. -/
structure StoredOrder where
  id : String
  status : String
  updatedAt : Option Nat
  completedAt : Option Nat
deriving Repr, DecidableEq

/-- The relevant collections of the backing store. -/
structure DBState where
  orders : List StoredOrder
  stocks : List StockDoc
  stockHistory : List StockHistoryEntry
  sales : List SaleRecord
deriving Repr, DecidableEq

/-- A buffered transaction.update on a stock document: the new quantity
and lastUpdated values for the document with the given id. -/
structure StockWrite where
  stockId : String
  quantity : Nat
  lastUpdated : Nat
deriving Repr, DecidableEq

/-- The buffered transaction.update on the order document. -/
structure OrderWrite where
  orderId : String
  status : String
  updatedAt : Nat
  setCompleted : Bool
deriving Repr, DecidableEq

/-- The buffered writes of one run of the transaction body. -/
structure WriteSet where
  stockWrites : List StockWrite
  historyAppends : List StockHistoryEntry
  salesAppends : List SaleRecord
  orderWrite : OrderWrite
deriving Repr, DecidableEq

/-- The stock query of the Ready for Pickup branch: sizeName equals the
item size, and the varieties array contains any of the item varieties. -/
def stockMatches (item : OrderItem) (s : StockDoc) : Bool :=
  s.sizeName == item.productSize &&
    item.productVarieties.any (fun v => s.varieties.contains v)

/-- The first matching stock document of the query snapshot. -/
def matchedStock (stocks : List StockDoc) (item : OrderItem) :
    Option StockDoc :=
  stocks.find? (stockMatches item)

/-- The id of the matched stock document of an item, when one exists. -/
def matchedStockId (stocks : List StockDoc) (item : OrderItem) :
    Option String :=
  (matchedStock stocks item).map (fun s => s.id)

/-- The comma-separated variety list used in the error messages. -/
def joinVarieties (vs : List String) : String :=
  String.intercalate ", " vs

/-- The error thrown when the stock query snapshot is empty. -/
def noStockMsg (item : OrderItem) : String :=
  "No stock found for " ++ item.productSize ++ " with varieties " ++
    joinVarieties item.productVarieties

/-- The error thrown when the matched stock quantity is below the
requested quantity. -/
def insufficientMsg (item : OrderItem) : String :=
  "Insufficient stock for " ++ item.productSize ++ " with varieties " ++
    joinVarieties item.productVarieties

/-- The stockHistory document set by the transaction for one line item
and its matched stock document. -/
def mkHistoryEntry (orderId : String) (now : Nat) (item : OrderItem)
    (stockDoc : StockDoc) : StockHistoryEntry :=
  { varieties := item.productVarieties
    sizeName := item.productSize
    type := "out"
    quantity := item.productQuantity
    previousStock := stockDoc.quantity
    currentStock := stockDoc.quantity - item.productQuantity
    date := now
    updatedBy := "System"
    remarks := "Order " ++ orderId ++ " ready for pickup"
    stockId := stockDoc.id
    isDeleted := false }

/-- One iteration of the Ready for Pickup loop.  The stock is read with a
plain query (getDocs) against the committed state, so the read neither
sees the buffered writes of the transaction nor joins its validated read
set.  The matched document must hold at least the requested quantity;
then its update and the history append are buffered. -/
def processItem (stocks : List StockDoc) (orderId : String) (now : Nat)
    (item : OrderItem) : Except String (StockWrite × StockHistoryEntry) :=
  match matchedStock stocks item with
  | none => .error (noStockMsg item)
  | some stockDoc =>
      if stockDoc.quantity < item.productQuantity then
        .error (insufficientMsg item)
      else
        .ok ({ stockId := stockDoc.id
               quantity := stockDoc.quantity - item.productQuantity
               lastUpdated := now },
             mkHistoryEntry orderId now item stockDoc)

/-- The Ready for Pickup loop over the line items, stopping at the first
thrown error. -/
def processItems (stocks : List StockDoc) (orderId : String) (now : Nat) :
    List OrderItem → Except String (List (StockWrite × StockHistoryEntry))
  | [] => .ok []
  | item :: rest => do
      let r ← processItem stocks orderId now item
      let rs ← processItems stocks orderId now rest
      .ok (r :: rs)

/-- The sales document set by the Completed branch: the stored order
total, the current date, and the items with subtotal quantity times
price. -/
def mkSaleRecord (order : Order) (now : Nat) : SaleRecord :=
  { orderId := order.id
    amount := order.orderDetails.totalAmount
    date := now
    saleItems := order.items.map (fun item =>
      { size := item.productSize
        varieties := item.productVarieties
        quantity := item.productQuantity
        price := item.productPrice
        subtotal := item.productQuantity * item.productPrice })
    salePaymentMethod := order.orderDetails.paymentMethod
    customerName := resolvedName order.userDetails }

/-- The body of the runTransaction call of handleStatusUpdate, producing
the buffered write set.  The order document is read through
transaction.get and is the only document in the validated read set. -/
def transactionBody (st : DBState) (order : Order)
    (orderId newStatus : String) (now : Nat) : Except String WriteSet :=
  match st.orders.find? (fun o => o.id == orderId) with
  | none => .error "Order not found"
  | some _ => do
      let pairs ←
        if newStatus == "Ready for Pickup" then
          processItems st.stocks orderId now order.items
        else
          .ok []
      .ok { stockWrites := pairs.map Prod.fst
            historyAppends := pairs.map Prod.snd
            salesAppends :=
              if newStatus == "Completed" then [mkSaleRecord order now]
              else []
            orderWrite :=
              { orderId := orderId
                status := newStatus
                updatedAt := now
                setCompleted := newStatus == "Completed" } }

/-- Apply one buffered stock update to the stocks collection. -/
def applyStockWrite (stocks : List StockDoc) (w : StockWrite) :
    List StockDoc :=
  stocks.map (fun s =>
    if s.id == w.stockId then
      { s with quantity := w.quantity, lastUpdated := w.lastUpdated }
    else s)

/-- Apply the buffered order update: set status and updatedAt, and set
completedAt only when completing. -/
def applyOrderWrite (orders : List StoredOrder) (w : OrderWrite) :
    List StoredOrder :=
  orders.map (fun o =>
    if o.id == w.orderId then
      { o with
          status := w.status,
          updatedAt := some w.updatedAt,
          completedAt :=
            if w.setCompleted then some w.updatedAt else o.completedAt }
    else o)

/-- Atomic commit of a buffered write set. -/
def applyWrites (st : DBState) (w : WriteSet) : DBState :=
  { orders := applyOrderWrite st.orders w.orderWrite
    stocks := w.stockWrites.foldl applyStockWrite st.stocks
    stockHistory := st.stockHistory ++ w.historyAppends
    sales := st.sales ++ w.salesAppends }

/-- The outcome surfaced by handleStatusUpdate: a silent return (only a
console log), a success alert, or a failure alert. -/
inductive HandlerResult where
  | silent
  | success (msg : String)
  | failure (msg : String)
deriving Repr, DecidableEq

/-- handleStatusUpdate: look the order up in the loaded component state;
without a document reference, log and return silently; otherwise run the
transaction, committing its writes on success, and alert either the
success message or the thrown error message, leaving the store untouched
on error (rollback by the transactional primitive). -/
def handleStatusUpdate (loaded : List Order) (st : DBState)
    (orderId newStatus : String) (now : Nat) : DBState × HandlerResult :=
  match loaded.find? (fun o => o.id == orderId) with
  | none => (st, .silent)
  | some order =>
      if order.hasRef then
        match transactionBody st order orderId newStatus now with
        | .error msg => (st, .failure msg)
        | .ok w =>
            (applyWrites st w,
             .success ("Order " ++
               (if newStatus == "Completed" then
                 "completed and sales updated"
               else "status updated") ++ " successfully!"))
      else (st, .silent)

/-- The quantity stored for a given stock document id. -/
def quantityOf (stocks : List StockDoc) (sid : String) : Option Nat :=
  (stocks.find? (fun s => s.id == sid)).map (fun s => s.quantity)

/-- Whether a line item can be fulfilled against the committed stocks:
the query matches a document and its quantity is at least the requested
quantity. -/
def itemFulfillable (stocks : List StockDoc) (item : OrderItem) : Bool :=
  match matchedStock stocks item with
  | none => false
  | some s => item.productQuantity ≤ s.quantity

/-- The buffered pair produced for a fulfillable line item (junk values
when no stock matches; only used under fulfillability). -/
def itemPair (stocks : List StockDoc) (orderId : String) (now : Nat)
    (item : OrderItem) : StockWrite × StockHistoryEntry :=
  match matchedStock stocks item with
  | some s =>
      ({ stockId := s.id
         quantity := s.quantity - item.productQuantity
         lastUpdated := now },
       mkHistoryEntry orderId now item s)
  | none =>
      ({ stockId := "", quantity := 0, lastUpdated := now },
       mkHistoryEntry orderId now item
         { id := "", sizeName := "", varieties := []
           quantity := 0, lastUpdated := 0 })

/-- Cumulative effect of a list of buffered stock updates on one stock
document. -/
def applyAllWrites (ws : List StockWrite) (s : StockDoc) : StockDoc :=
  ws.foldl (fun acc w =>
    if acc.id == w.stockId then
      { acc with quantity := w.quantity, lastUpdated := w.lastUpdated }
    else acc) s

/-- Interleaved execution of two status-update transactions on distinct
orders contending on the same stock documents.  Both bodies run before
either commit, so both read the same committed stock state through the
plain getDocs query; at commit Firestore validates only the documents
read through transaction.get — here each transaction reads only its own
order document — and since the two orders are distinct both validations
pass and both write sets are committed in sequence. -/
def concurrentStatusUpdate (st : DBState) (o1 o2 : Order)
    (newStatus : String) (now : Nat) : DBState × Bool × Bool :=
  match transactionBody st o1 o1.id newStatus now,
        transactionBody st o2 o2.id newStatus now with
  | .ok w1, .ok w2 => (applyWrites (applyWrites st w1) w2, true, true)
  | .ok w1, .error _ => (applyWrites st w1, true, false)
  | .error _, .ok w2 => (applyWrites st w2, false, true)
  | .error _, .error _ => (st, false, false)

/-- A second concrete order, distinct from cOrd, requesting the same
stock. -/
def cOrd2 : Order :=
  { cOrd with id := "ord2", userId := "u2" }

/-- A concrete stock document matching the line item of cOrd and cOrd2:
quantity 5 on hand. -/
def cStock : StockDoc :=
  { id := "s1", sizeName := "Large", varieties := ["Ube", "Choco"]
    quantity := 5, lastUpdated := 0 }

/-- A concrete store state holding both concrete orders and the concrete
stock document. -/
def cSt : DBState :=
  { orders :=
      [{ id := "ord1", status := "Preparing Order"
         updatedAt := none, completedAt := none },
       { id := "ord2", status := "Preparing Order"
         updatedAt := none, completedAt := none }]
    stocks := [cStock]
    stockHistory := []
    sales := [] }

/-- A concrete line item requesting more than the stock on hand: 9 of
size Large, variety Ube, against quantity 5. -/
def cItemIns : OrderItem :=
  { cartId := "c4", productSize := "Large"
    productVarieties := ["Ube"], productQuantity := 9
    productPrice := 100 }

/-- A concrete order whose single line item exceeds the stock on hand. -/
def cOrdIns : Order :=
  { cOrd with id := "ord4", items := [cItemIns] }

/-- A concrete line item matching no stock document: size Small is not
stocked. -/
def cItemNS : OrderItem :=
  { cartId := "c3", productSize := "Small"
    productVarieties := ["Ube"], productQuantity := 1
    productPrice := 50 }

/-- A concrete order whose first line item is fulfillable and whose
second line item matches no stock document. -/
def cOrdNS : Order :=
  { cOrd with id := "ord3", items := [cItem1, cItemNS] }

/-- A concrete store state for the failure witnesses, holding the orders
ord3 and ord4 and the concrete stock document. -/
def cStW : DBState :=
  { orders :=
      [{ id := "ord3", status := "Preparing Order"
         updatedAt := none, completedAt := none },
       { id := "ord4", status := "Preparing Order"
         updatedAt := none, completedAt := none }]
    stocks := [cStock]
    stockHistory := []
    sales := [] }

/-- A concrete line item requesting 2 of size Large, variety Ube; its
first stock match is the same document s1 as the other items of size
Large. -/
def cItemA : OrderItem :=
  { cartId := "a1", productSize := "Large"
    productVarieties := ["Ube"], productQuantity := 2
    productPrice := 100 }

/-- A concrete line item requesting 3 of size Large, variety Choco; it
also first-matches the stock document s1. -/
def cItemB : OrderItem :=
  { cartId := "a2", productSize := "Large"
    productVarieties := ["Choco"], productQuantity := 3
    productPrice := 100 }

/-- A concrete order whose two line items alias the same stock document:
both first-match s1, each individually within the quantity 5 on hand. -/
def cOrdAlias : Order :=
  { cOrd with id := "ord5", items := [cItemA, cItemB] }

/-- A concrete store state holding the aliasing order and the stock
document s1 with quantity 5. -/
def cStA : DBState :=
  { orders :=
      [{ id := "ord5", status := "Preparing Order"
         updatedAt := none, completedAt := none }]
    stocks := [cStock]
    stockHistory := []
    sales := [] }

/-- If no element of the prefix satisfies the predicate and the appended
element does, updateFirst rewrites exactly the appended element. -/
theorem updateFirst_append (p : α → Bool) (f : α → α) (tr : List α)
    (e : α) (htr : ∀ x ∈ tr, p x = false) (he : p e = true) :
    updateFirst p f (tr ++ [e]) = tr ++ [f e] := by
  induction tr with
  | nil => simp [updateFirst, he]
  | cons x xs ih =>
      have hx : p x = false := htr x (by simp)
      simp only [List.cons_append, updateFirst, hx, Bool.false_eq_true,
        if_false, List.cons.injEq, true_and]
      exact ih (fun y hy => htr y (by simp [hy]))

/-- C5.  The visibility filter is the stated total boolean function. -/
theorem visibilityFilter_spec (o : Order) :
    visibilityFilter o = true ↔
      (if o.orderDetails.paymentMethod = "GCash" then
        o.orderDetails.paymentStatus = some "approved"
      else
        o.orderDetails.paymentStatus ≠ some "pending") := by
  unfold visibilityFilter
  by_cases h : o.orderDetails.paymentMethod = "GCash" <;>
    simp [h]

/-- C9.  Searching with the empty term returns all orders, and searching
with any term returns exactly the orders whose id or resolved full name
contains the term case-insensitively. -/
theorem search_spec (orders : List Order) :
    search orders "" = orders ∧
      ∀ (term : String) (o : Order),
        o ∈ search orders term ↔
          o ∈ orders ∧
            ((jsToLower term).data <:+: (jsToLower o.id).data ∨
              ∃ ud, o.userDetails = some ud ∧
                (jsToLower term).data <:+:
                  (jsToLower (ud.firstName ++ " " ++ ud.lastName)).data) := by
  constructor
  · apply List.filter_eq_self.mpr
    intro o _
    simp [matchesSearch, jsIncludes, jsToLower]
  · intro term o
    simp only [search, List.mem_filter, matchesSearch, jsIncludes,
      Bool.or_eq_true, decide_eq_true_eq]
    constructor
    · rintro ⟨hmem, hmatch⟩
      refine ⟨hmem, ?_⟩
      rcases hmatch with h | h
      · exact Or.inl h
      · cases hud : o.userDetails with
        | none => rw [hud] at h; simp at h
        | some ud =>
            rw [hud] at h
            simp only [decide_eq_true_eq] at h
            exact Or.inr ⟨ud, rfl, h⟩
    · rintro ⟨hmem, h | ⟨ud, hud, h⟩⟩
      · exact ⟨hmem, Or.inl h⟩
      · refine ⟨hmem, Or.inr ?_⟩
        rw [hud]
        simpa using h

/-- A fulfillable item is processed into its buffered pair. -/
theorem processItem_ok_of_fulfillable (stocks : List StockDoc)
    (orderId : String) (now : Nat) (it : OrderItem)
    (h : itemFulfillable stocks it = true) :
    processItem stocks orderId now it =
      .ok (itemPair stocks orderId now it) := by
  unfold itemFulfillable at h
  cases hm : matchedStock stocks it with
  | none => rw [hm] at h; simp at h
  | some s =>
      rw [hm] at h
      simp only [decide_eq_true_eq] at h
      unfold processItem itemPair
      rw [hm]
      simp [Nat.not_lt.mpr h]

/-- A list of fulfillable items is processed into the list of buffered
pairs. -/
theorem processItems_ok (stocks : List StockDoc) (orderId : String)
    (now : Nat) (items : List OrderItem)
    (h : ∀ it ∈ items, itemFulfillable stocks it = true) :
    processItems stocks orderId now items =
      .ok (items.map (itemPair stocks orderId now)) := by
  induction items with
  | nil => rfl
  | cons it its ih =>
      have h1 := processItem_ok_of_fulfillable stocks orderId now it
        (h it (by simp))
      have h2 := ih (fun x hx => h x (by simp [hx]))
      simp [processItems, h1, h2, Bind.bind, Except.bind]

/-- The loop fails with the error thrown at the first failing item; the
fulfillable items ahead of it do not prevent the error. -/
theorem processItems_append_error (stocks : List StockDoc)
    (orderId : String) (now : Nat) (pre : List OrderItem)
    (item : OrderItem) (rest : List OrderItem) (msg : String)
    (hpre : ∀ it ∈ pre, itemFulfillable stocks it = true)
    (herr : processItem stocks orderId now item = .error msg) :
    processItems stocks orderId now (pre ++ item :: rest) = .error msg := by
  induction pre with
  | nil => simp [processItems, herr, Bind.bind, Except.bind]
  | cons p ps ih =>
      have hp := processItem_ok_of_fulfillable stocks orderId now p
        (hpre p (by simp))
      have h2 := ih (fun x hx => hpre x (by simp [hx]))
      simp [processItems, hp, h2, Bind.bind, Except.bind]

/-- Buffered stock updates never change the document id. -/
theorem applyAllWrites_id (ws : List StockWrite) :
    ∀ s : StockDoc, (applyAllWrites ws s).id = s.id := by
  induction ws with
  | nil => intro s; rfl
  | cons w ws ih =>
      intro s
      have hstep : applyAllWrites (w :: ws) s =
          applyAllWrites ws
            (if s.id == w.stockId then
              { s with quantity := w.quantity, lastUpdated := w.lastUpdated }
            else s) := rfl
      rw [hstep, ih]
      split <;> rfl

/-- Buffered updates aimed at other document ids leave a stock document
unchanged. -/
theorem applyAllWrites_frame (ws : List StockWrite) :
    ∀ s : StockDoc, (∀ w ∈ ws, w.stockId ≠ s.id) →
      applyAllWrites ws s = s := by
  induction ws with
  | nil => intro s _; rfl
  | cons w ws ih =>
      intro s h
      have hcond : (s.id == w.stockId) = false :=
        beq_eq_false_iff_ne.mpr (fun he => h w (by simp) he.symm)
      have hstep : applyAllWrites (w :: ws) s =
          applyAllWrites ws
            (if s.id == w.stockId then
              { s with quantity := w.quantity, lastUpdated := w.lastUpdated }
            else s) := rfl
      rw [hstep, if_neg (by simp [hcond])]
      exact ih s (fun w' hw' => h w' (by simp [hw']))

/-- With pairwise distinct write targets, the update aimed at a stock
document determines its committed quantity. -/
theorem applyAllWrites_quantity (w : StockWrite) :
    ∀ (ws : List StockWrite) (s : StockDoc), w ∈ ws →
      ws.Pairwise (fun a b => a.stockId ≠ b.stockId) →
      w.stockId = s.id →
      (applyAllWrites ws s).quantity = w.quantity := by
  intro ws
  induction ws with
  | nil => intro s hw _ _; cases hw
  | cons w' ws ih =>
      intro s hw hp hid
      rw [List.pairwise_cons] at hp
      have hstep : applyAllWrites (w' :: ws) s =
          applyAllWrites ws
            (if s.id == w'.stockId then
              { s with quantity := w'.quantity, lastUpdated := w'.lastUpdated }
            else s) := rfl
      rcases List.mem_cons.mp hw with rfl | hmem
      · have hcond : (s.id == w.stockId) = true := by simp [hid]
        rw [hstep, if_pos hcond]
        rw [applyAllWrites_frame ws _ (fun w'' hw'' => by
          have := hp.1 w'' hw''
          simp only []
          intro he
          exact this (by rw [he, ← hid]))]
      · have hne := hp.1 w hmem
        have hcond : (s.id == w'.stockId) = false := by
          apply beq_eq_false_iff_ne.mpr
          intro he
          exact hne (by rw [← he]; exact hid.symm)
        rw [hstep, if_neg (by simp [hcond])]
        exact ih s hmem hp.2 hid

/-- Committing a list of buffered stock updates acts pointwise on the
stocks collection. -/
theorem foldl_applyStockWrite_eq_map (ws : List StockWrite) :
    ∀ stocks : List StockDoc,
      ws.foldl applyStockWrite stocks = stocks.map (applyAllWrites ws) := by
  induction ws with
  | nil =>
      intro stocks
      have h : applyAllWrites ([] : List StockWrite) = fun s => s := rfl
      rw [List.foldl_nil, h, List.map_id']
  | cons w ws ih =>
      intro stocks
      rw [List.foldl_cons, ih, applyStockWrite, List.map_map]
      congr 1

/-- In a collection with pairwise distinct document ids, the id query of
a member finds exactly that member. -/
theorem find?_id_of_nodup (stocks : List StockDoc) (s : StockDoc)
    (hnd : (stocks.map (fun t => t.id)).Nodup) (hs : s ∈ stocks) :
    stocks.find? (fun t => t.id == s.id) = some s := by
  induction stocks with
  | nil => cases hs
  | cons t ts ih =>
      rw [List.map_cons, List.nodup_cons] at hnd
      rcases List.mem_cons.mp hs with rfl | hmem
      · simp [List.find?]
      · have hcond : (t.id == s.id) = false := by
          apply beq_eq_false_iff_ne.mpr
          intro he
          exact hnd.1 (he ▸ List.mem_map_of_mem (fun t => t.id) hmem)
        simp only [List.find?, hcond]
        exact ih hnd.2 hmem

/-- Under fulfillable items, the Ready for Pickup transaction body
buffers the per-item stock updates and history appends, no sales append,
and the order status update without completion stamp. -/
theorem transactionBody_ready (st : DBState) (order : Order)
    (orderId : String) (now : Nat) (so : StoredOrder)
    (hstore : st.orders.find? (fun o => o.id == orderId) = some so)
    (hok : ∀ it ∈ order.items, itemFulfillable st.stocks it = true) :
    transactionBody st order orderId "Ready for Pickup" now =
      .ok { stockWrites :=
              (order.items.map (itemPair st.stocks orderId now)).map Prod.fst
            historyAppends :=
              (order.items.map (itemPair st.stocks orderId now)).map Prod.snd
            salesAppends := []
            orderWrite :=
              { orderId := orderId, status := "Ready for Pickup"
                updatedAt := now, setCompleted := false } } := by
  have hb1 : ("Ready for Pickup" == "Ready for Pickup") = true := rfl
  have hb2 : ("Ready for Pickup" == "Completed") = false := rfl
  have hpi := processItems_ok st.stocks orderId now order.items hok
  simp only [transactionBody, hstore, hb1, hb2, if_true,
    Bool.false_eq_true, if_false, hpi, Bind.bind, Except.bind]

/-- C10.  When the order id is not found in the loaded component state,
or its entry carries no document reference, handleStatusUpdate starts no
transaction, changes nothing in the store, and returns silently. -/
theorem handleStatusUpdate_missing_ref (loaded : List Order)
    (st : DBState) (orderId newStatus : String) (now : Nat)
    (h : loaded.find? (fun o => o.id == orderId) = none ∨
      ∃ order, loaded.find? (fun o => o.id == orderId) = some order ∧
        order.hasRef = false) :
    handleStatusUpdate loaded st orderId newStatus now = (st, .silent) := by
  rcases h with h | ⟨order, hfind, href⟩
  · simp [handleStatusUpdate, h]
  · simp [handleStatusUpdate, hfind, href]

/-- C10 witness: no loaded order has the id zzz, so the update on zzz
returns silently with the store unchanged. -/
theorem handleStatusUpdate_missing_ref_witness :
    ([] : List Order).find? (fun o => o.id == "zzz") = none ∧
    handleStatusUpdate [] cSt "zzz" "Completed" 0 = (cSt, .silent) :=
  ⟨rfl, handleStatusUpdate_missing_ref [] cSt "zzz" "Completed" 0
    (Or.inl rfl)⟩

/-- C7.  For a target status that is neither Ready for Pickup nor
Completed, the update only sets the status and updatedAt fields of the
order document: stocks, stock history and sales are unchanged, and no
completedAt is written. -/
theorem handleStatusUpdate_other_status (loaded : List Order)
    (st : DBState) (orderId newStatus : String) (now : Nat)
    (order : Order) (so : StoredOrder)
    (hfind : loaded.find? (fun o => o.id == orderId) = some order)
    (href : order.hasRef = true)
    (hstore : st.orders.find? (fun o => o.id == orderId) = some so)
    (h1 : newStatus ≠ "Ready for Pickup") (h2 : newStatus ≠ "Completed") :
    handleStatusUpdate loaded st orderId newStatus now =
      ({ st with orders := st.orders.map (fun o =>
          if o.id == orderId then
            { o with status := newStatus, updatedAt := some now }
          else o) },
       .success "Order status updated successfully!") := by
  have hb1 : (newStatus == "Ready for Pickup") = false :=
    beq_eq_false_iff_ne.mpr h1
  have hb2 : (newStatus == "Completed") = false :=
    beq_eq_false_iff_ne.mpr h2
  simp only [handleStatusUpdate, hfind, href, if_true, transactionBody,
    hstore, hb1, hb2, Bool.false_eq_true, if_false, Bind.bind,
    Except.bind, applyWrites, applyOrderWrite, List.map_nil,
    List.foldl_nil, List.append_nil]
  rfl

/-- C4.  Completing an order appends exactly one sales record; its per
item subtotals are quantity times unit price, its amount is the stored
order total — equal to the sum of quantity times unit price under the
order total invariant — and the order document gets status Completed, a
refreshed updatedAt and a completedAt timestamp. -/
theorem handleStatusUpdate_completed (loaded : List Order) (st : DBState)
    (orderId : String) (now : Nat) (order : Order) (so : StoredOrder)
    (hfind : loaded.find? (fun o => o.id == orderId) = some order)
    (href : order.hasRef = true)
    (hstore : st.orders.find? (fun o => o.id == orderId) = some so)
    (htotal : order.orderDetails.totalAmount =
      (order.items.map (fun i => i.productQuantity * i.productPrice)).sum) :
    handleStatusUpdate loaded st orderId "Completed" now =
      ({ st with
          orders := st.orders.map (fun o =>
            if o.id == orderId then
              { o with
                  status := "Completed",
                  updatedAt := some now,
                  completedAt := some now }
            else o),
          sales := st.sales ++ [mkSaleRecord order now] },
       .success "Order completed and sales updated successfully!") ∧
    (mkSaleRecord order now).amount =
      (order.items.map (fun i => i.productQuantity * i.productPrice)).sum ∧
    (mkSaleRecord order now).saleItems = order.items.map (fun i =>
      { size := i.productSize, varieties := i.productVarieties,
        quantity := i.productQuantity, price := i.productPrice,
        subtotal := i.productQuantity * i.productPrice }) := by
  refine ⟨?_, htotal, rfl⟩
  have hb1 : ("Completed" == "Ready for Pickup") = false := rfl
  have hb2 : ("Completed" == "Completed") = true := rfl
  simp only [handleStatusUpdate, hfind, href, if_true, transactionBody,
    hstore, hb1, hb2, Bool.false_eq_true, if_false, if_true, Bind.bind,
    Except.bind, applyWrites, applyOrderWrite, List.map_nil,
    List.foldl_nil, List.append_nil]
  rfl

/-- C7 witness: moving the concrete order ord1 to Cancelled only rewrites
its status and updatedAt fields in the store. -/
theorem handleStatusUpdate_other_status_witness :
    ("Cancelled" : String) ≠ "Ready for Pickup" ∧
    ("Cancelled" : String) ≠ "Completed" ∧
    handleStatusUpdate [cOrd] cSt "ord1" "Cancelled" 7 =
      ({ cSt with orders := cSt.orders.map (fun o =>
          if o.id == "ord1" then
            { o with status := "Cancelled", updatedAt := some 7 }
          else o) },
       .success "Order status updated successfully!") :=
  ⟨by decide, by decide,
    handleStatusUpdate_other_status [cOrd] cSt "ord1" "Cancelled" 7 cOrd
      { id := "ord1", status := "Preparing Order"
        updatedAt := none, completedAt := none }
      rfl rfl rfl (by decide) (by decide)⟩

/-- C4 witness: completing the concrete order ord1, whose stored total
300 equals the item sum 3 times 100, appends one sales record and stamps
completion. -/
theorem handleStatusUpdate_completed_witness :
    cOrd.orderDetails.totalAmount =
      (cOrd.items.map (fun i => i.productQuantity * i.productPrice)).sum ∧
    (handleStatusUpdate [cOrd] cSt "ord1" "Completed" 7 =
      ({ cSt with
          orders := cSt.orders.map (fun o =>
            if o.id == "ord1" then
              { o with
                  status := "Completed",
                  updatedAt := some 7,
                  completedAt := some 7 }
            else o),
          sales := cSt.sales ++ [mkSaleRecord cOrd 7] },
       .success "Order completed and sales updated successfully!") ∧
    (mkSaleRecord cOrd 7).amount =
      (cOrd.items.map (fun i => i.productQuantity * i.productPrice)).sum ∧
    (mkSaleRecord cOrd 7).saleItems = cOrd.items.map (fun i =>
      { size := i.productSize, varieties := i.productVarieties,
        quantity := i.productQuantity, price := i.productPrice,
        subtotal := i.productQuantity * i.productPrice })) :=
  ⟨by decide,
    handleStatusUpdate_completed [cOrd] cSt "ord1" 7 cOrd
      { id := "ord1", status := "Preparing Order"
        updatedAt := none, completedAt := none }
      rfl rfl rfl (by decide)⟩

/-- C2.  When the first failing line item of the order matches a stock
document whose quantity is below the requested quantity, the Ready for
Pickup transition fails with the insufficient-stock error naming the item
size and varieties, and the whole store is left unchanged: the stock
quantity remains, no history entry is appended, and the order status is
untouched. -/
theorem handleStatusUpdate_insufficient (loaded : List Order)
    (st : DBState) (orderId : String) (now : Nat) (order : Order)
    (so : StoredOrder) (pre rest : List OrderItem) (item : OrderItem)
    (s : StockDoc)
    (hfind : loaded.find? (fun o => o.id == orderId) = some order)
    (href : order.hasRef = true)
    (hstore : st.orders.find? (fun o => o.id == orderId) = some so)
    (hitems : order.items = pre ++ item :: rest)
    (hpre : ∀ it ∈ pre, itemFulfillable st.stocks it = true)
    (hm : matchedStock st.stocks item = some s)
    (hq : s.quantity < item.productQuantity) :
    handleStatusUpdate loaded st orderId "Ready for Pickup" now =
      (st, .failure (insufficientMsg item)) ∧
    insufficientMsg item = "Insufficient stock for " ++ item.productSize ++
      " with varieties " ++ String.intercalate ", " item.productVarieties := by
  refine ⟨?_, rfl⟩
  have herr : processItem st.stocks orderId now item =
      .error (insufficientMsg item) := by
    unfold processItem
    rw [hm]
    simp [hq]
  have hloop := processItems_append_error st.stocks orderId now pre item
    rest (insufficientMsg item) hpre herr
  have hb1 : ("Ready for Pickup" == "Ready for Pickup") = true := rfl
  simp only [handleStatusUpdate, hfind, href, if_true, transactionBody,
    hstore, hb1, if_true, hitems, hloop, Bind.bind, Except.bind]

/-- C3.  When a line item of the order matches no stock document, the
Ready for Pickup transition fails with the no-stock error naming the item
size and varieties, and the whole store is left unchanged — in particular
the decrements of earlier fulfillable line items of the same order are
rolled back. -/
theorem handleStatusUpdate_no_stock (loaded : List Order) (st : DBState)
    (orderId : String) (now : Nat) (order : Order) (so : StoredOrder)
    (pre rest : List OrderItem) (item : OrderItem)
    (hfind : loaded.find? (fun o => o.id == orderId) = some order)
    (href : order.hasRef = true)
    (hstore : st.orders.find? (fun o => o.id == orderId) = some so)
    (hitems : order.items = pre ++ item :: rest)
    (hpre : ∀ it ∈ pre, itemFulfillable st.stocks it = true)
    (hm : matchedStock st.stocks item = none) :
    handleStatusUpdate loaded st orderId "Ready for Pickup" now =
      (st, .failure (noStockMsg item)) ∧
    noStockMsg item = "No stock found for " ++ item.productSize ++
      " with varieties " ++ String.intercalate ", " item.productVarieties := by
  refine ⟨?_, rfl⟩
  have herr : processItem st.stocks orderId now item =
      .error (noStockMsg item) := by
    unfold processItem
    rw [hm]
  have hloop := processItems_append_error st.stocks orderId now pre item
    rest (noStockMsg item) hpre herr
  have hb1 : ("Ready for Pickup" == "Ready for Pickup") = true := rfl
  simp only [handleStatusUpdate, hfind, href, if_true, transactionBody,
    hstore, hb1, if_true, hitems, hloop, Bind.bind, Except.bind]

/-- Committing the buffered order update rewrites the status of the
targeted order document. -/
theorem applyOrderWrite_find?_status (orders : List StoredOrder)
    (w : OrderWrite) (so : StoredOrder)
    (hstore : orders.find? (fun o => o.id == w.orderId) = some so) :
    ((applyOrderWrite orders w).find? (fun o => o.id == w.orderId)).map
        (fun o => o.status) = some w.status := by
  simp only [applyOrderWrite]
  rw [List.find?_map]
  have hpred : ((fun o => o.id == w.orderId) ∘ (fun (o : StoredOrder) =>
      if o.id == w.orderId then
        { o with
            status := w.status,
            updatedAt := some w.updatedAt,
            completedAt :=
              if w.setCompleted then some w.updatedAt else o.completedAt }
      else o)) = (fun o => o.id == w.orderId) := by
    funext o
    simp only [Function.comp]
    split <;> rfl
  rw [hpred, hstore]
  have hsoid := List.find?_some hstore
  have heq : so.id = w.orderId := by simpa using hsoid
  simp [heq]

/-- C1 counterexample.  The claim fails when two line items of one order
alias the same stock document: in order ord5 the items request 2 and 3
of size Large, both first-matching the document s1 with quantity 5, so
each matched record holds at least the requested quantity; yet the
transition succeeds with final quantity 2, not 3 = 5 - 2 as the claim
demands for the first item's matched record — the stock reads see only
the committed quantity 5, the two buffered writes store absolute values,
the last one wins at commit, and the first decrement is lost; both
appended history entries record previousStock 5. -/
theorem handleStatusUpdate_ready_alias_counterexample :
    (handleStatusUpdate [cOrdAlias] cStA "ord5" "Ready for Pickup" 7).2 =
        .success "Order status updated successfully!" ∧
    matchedStock cStA.stocks cItemA = some cStock ∧
    matchedStock cStA.stocks cItemB = some cStock ∧
    cItemA.productQuantity ≤ cStock.quantity ∧
    cItemB.productQuantity ≤ cStock.quantity ∧
    quantityOf
        (handleStatusUpdate [cOrdAlias] cStA "ord5" "Ready for Pickup" 7).1.stocks
        cStock.id = some 2 ∧
    ¬ quantityOf
        (handleStatusUpdate [cOrdAlias] cStA "ord5" "Ready for Pickup" 7).1.stocks
        cStock.id = some (cStock.quantity - cItemA.productQuantity) ∧
    ((handleStatusUpdate [cOrdAlias] cStA "ord5" "Ready for Pickup" 7).1.stockHistory.map
        (fun e => (e.previousStock, e.currentStock))) = [(5, 3), (5, 2)] :=
  ⟨by decide, by decide, by decide, by decide, by decide, by decide,
    by decide, by decide⟩

/-- C1 amended.  When every line item of the order matches a stock
document holding at least the requested quantity, and the matched
documents are pairwise distinct (no two line items aliasing one stock
record — without this the code loses all but the last decrement, see the
counterexample) with the stock ids unique, the Ready for Pickup
transition succeeds: each matched document's quantity becomes Q - q,
exactly one history entry is appended per line item recording
previousStock Q, currentStock Q - q, direction out and a remark naming
the order id, and the order document's status becomes Ready for
Pickup. -/
theorem handleStatusUpdate_ready_success (loaded : List Order)
    (st : DBState) (orderId : String) (now : Nat) (order : Order)
    (so : StoredOrder)
    (hfind : loaded.find? (fun o => o.id == orderId) = some order)
    (href : order.hasRef = true)
    (hstore : st.orders.find? (fun o => o.id == orderId) = some so)
    (hok : ∀ it ∈ order.items, itemFulfillable st.stocks it = true)
    (hnd : (st.stocks.map (fun s => s.id)).Nodup)
    (hdisj : order.items.Pairwise
      (fun a b => matchedStockId st.stocks a ≠ matchedStockId st.stocks b)) :
    (handleStatusUpdate loaded st orderId "Ready for Pickup" now).2 =
        .success "Order status updated successfully!" ∧
    (∃ newEntries,
      (handleStatusUpdate loaded st orderId "Ready for Pickup" now).1.stockHistory
          = st.stockHistory ++ newEntries ∧
      List.Forall₂ (fun it e => ∃ s, matchedStock st.stocks it = some s ∧
          it.productQuantity ≤ s.quantity ∧
          e = mkHistoryEntry orderId now it s ∧
          e.previousStock = s.quantity ∧
          e.currentStock = s.quantity - it.productQuantity ∧
          e.type = "out" ∧
          e.remarks = "Order " ++ orderId ++ " ready for pickup")
        order.items newEntries) ∧
    (∀ it ∈ order.items, ∀ s, matchedStock st.stocks it = some s →
      quantityOf
        (handleStatusUpdate loaded st orderId "Ready for Pickup" now).1.stocks
        s.id = some (s.quantity - it.productQuantity)) ∧
    ((handleStatusUpdate loaded st orderId "Ready for Pickup" now).1.orders.find?
        (fun o => o.id == orderId)).map (fun o => o.status) =
      some "Ready for Pickup" := by
  have hbc : ("Ready for Pickup" == "Completed") = false := rfl
  have htb := transactionBody_ready st order orderId now so hstore hok
  have hres : handleStatusUpdate loaded st orderId "Ready for Pickup" now =
      (applyWrites st
        { stockWrites :=
            (order.items.map (itemPair st.stocks orderId now)).map Prod.fst,
          historyAppends :=
            (order.items.map (itemPair st.stocks orderId now)).map Prod.snd,
          salesAppends := [],
          orderWrite :=
            { orderId := orderId, status := "Ready for Pickup",
              updatedAt := now, setCompleted := false } },
       .success "Order status updated successfully!") := by
    simp only [handleStatusUpdate, hfind, href, if_true, htb, hbc,
      Bool.false_eq_true, if_false]
    rfl
  rw [hres]
  refine ⟨rfl, ?_, ?_, ?_⟩
  · refine ⟨(order.items.map (itemPair st.stocks orderId now)).map Prod.snd,
      rfl, ?_⟩
    rw [List.map_map, List.forall₂_map_right_iff, List.forall₂_same]
    intro it hit
    have hfl := hok it hit
    unfold itemFulfillable at hfl
    cases hm : matchedStock st.stocks it with
    | none => rw [hm] at hfl; simp at hfl
    | some s =>
        rw [hm] at hfl
        simp only [decide_eq_true_eq] at hfl
        refine ⟨s, rfl, hfl, ?_, ?_, ?_, ?_, ?_⟩ <;>
          simp [Function.comp, itemPair, hm, mkHistoryEntry]
  · intro it hit s hm
    have hstocks : (applyWrites st
        { stockWrites :=
            (order.items.map (itemPair st.stocks orderId now)).map Prod.fst,
          historyAppends :=
            (order.items.map (itemPair st.stocks orderId now)).map Prod.snd,
          salesAppends := [],
          orderWrite :=
            { orderId := orderId, status := "Ready for Pickup",
              updatedAt := now, setCompleted := false } }, (HandlerResult.success
                "Order status updated successfully!")).1.stocks =
        ((order.items.map (itemPair st.stocks orderId now)).map
          Prod.fst).foldl applyStockWrite st.stocks := rfl
    rw [hstocks, foldl_applyStockWrite_eq_map]
    unfold quantityOf
    rw [List.find?_map]
    have hpred : ((fun t => t.id == s.id) ∘
        applyAllWrites ((order.items.map (itemPair st.stocks orderId now)).map
          Prod.fst)) = (fun t => t.id == s.id) := by
      funext t
      simp [Function.comp, applyAllWrites_id]
    rw [hpred]
    have hmem_s : s ∈ st.stocks := List.mem_of_find?_eq_some hm
    rw [find?_id_of_nodup st.stocks s hnd hmem_s]
    have hwmem : (itemPair st.stocks orderId now it).1 ∈
        (order.items.map (itemPair st.stocks orderId now)).map Prod.fst :=
      List.mem_map_of_mem Prod.fst
        (List.mem_map_of_mem (itemPair st.stocks orderId now) hit)
    have hpw : ((order.items.map (itemPair st.stocks orderId now)).map
        Prod.fst).Pairwise (fun a b => a.stockId ≠ b.stockId) := by
      rw [List.map_map, List.pairwise_map]
      refine hdisj.imp_of_mem ?_
      intro a b ha hb hne
      have hfa := hok a ha
      have hfb := hok b hb
      unfold itemFulfillable at hfa hfb
      cases hma : matchedStock st.stocks a with
      | none => rw [hma] at hfa; simp at hfa
      | some sa =>
          cases hmb : matchedStock st.stocks b with
          | none => rw [hmb] at hfb; simp at hfb
          | some sb =>
              simp only [Function.comp, itemPair, hma, hmb]
              intro he
              apply hne
              unfold matchedStockId
              rw [hma, hmb]
              simpa using he
    have hid : (itemPair st.stocks orderId now it).1.stockId = s.id := by
      simp [itemPair, hm]
    have hq := applyAllWrites_quantity (itemPair st.stocks orderId now it).1
      ((order.items.map (itemPair st.stocks orderId now)).map Prod.fst) s
      hwmem hpw hid
    simp only [Option.map_some', hq]
    simp [itemPair, hm]
  · have hord : (applyWrites st
        { stockWrites :=
            (order.items.map (itemPair st.stocks orderId now)).map Prod.fst,
          historyAppends :=
            (order.items.map (itemPair st.stocks orderId now)).map Prod.snd,
          salesAppends := [],
          orderWrite :=
            { orderId := orderId, status := "Ready for Pickup",
              updatedAt := now, setCompleted := false } }, (HandlerResult.success
                "Order status updated successfully!")).1.orders =
        applyOrderWrite st.orders
          { orderId := orderId, status := "Ready for Pickup",
            updatedAt := now, setCompleted := false } := rfl
    rw [hord]
    exact applyOrderWrite_find?_status st.orders
      { orderId := orderId, status := "Ready for Pickup",
        updatedAt := now, setCompleted := false } so hstore

/-- C1 witness: the transition of the concrete order ord1 to Ready for
Pickup against stock quantity 5 with requested quantity 3 succeeds,
decrements the matched stock and appends one matching history entry. -/
theorem handleStatusUpdate_ready_success_witness :
    (∀ it ∈ cOrd.items, itemFulfillable cSt.stocks it = true) ∧
    ((handleStatusUpdate [cOrd] cSt "ord1" "Ready for Pickup" 7).2 =
        .success "Order status updated successfully!" ∧
      (∃ newEntries,
        (handleStatusUpdate [cOrd] cSt "ord1" "Ready for Pickup" 7).1.stockHistory
            = cSt.stockHistory ++ newEntries ∧
        List.Forall₂ (fun it e => ∃ s, matchedStock cSt.stocks it = some s ∧
            it.productQuantity ≤ s.quantity ∧
            e = mkHistoryEntry "ord1" 7 it s ∧
            e.previousStock = s.quantity ∧
            e.currentStock = s.quantity - it.productQuantity ∧
            e.type = "out" ∧
            e.remarks = "Order " ++ "ord1" ++ " ready for pickup")
          cOrd.items newEntries) ∧
      (∀ it ∈ cOrd.items, ∀ s, matchedStock cSt.stocks it = some s →
        quantityOf
          (handleStatusUpdate [cOrd] cSt "ord1" "Ready for Pickup" 7).1.stocks
          s.id = some (s.quantity - it.productQuantity)) ∧
      ((handleStatusUpdate [cOrd] cSt "ord1" "Ready for Pickup" 7).1.orders.find?
          (fun o => o.id == "ord1")).map (fun o => o.status) =
        some "Ready for Pickup") :=
  ⟨by decide,
    handleStatusUpdate_ready_success [cOrd] cSt "ord1" 7 cOrd
      { id := "ord1", status := "Preparing Order"
        updatedAt := none, completedAt := none }
      rfl rfl rfl (by decide) (by decide) (by simp [cOrd])⟩

/-- C2 witness: the order ord4 requests 9 of size Large against stock
quantity 5, so the transition fails with the insufficient-stock error and
the store cStW is unchanged. -/
theorem handleStatusUpdate_insufficient_witness :
    matchedStock cStW.stocks cItemIns = some cStock ∧
    cStock.quantity < cItemIns.productQuantity ∧
    (handleStatusUpdate [cOrdIns] cStW "ord4" "Ready for Pickup" 7 =
        (cStW, .failure (insufficientMsg cItemIns)) ∧
      insufficientMsg cItemIns =
        "Insufficient stock for " ++ cItemIns.productSize ++
          " with varieties " ++
          String.intercalate ", " cItemIns.productVarieties) :=
  ⟨by decide, by decide,
    handleStatusUpdate_insufficient [cOrdIns] cStW "ord4" 7 cOrdIns
      { id := "ord4", status := "Preparing Order"
        updatedAt := none, completedAt := none }
      [] [] cItemIns cStock
      rfl rfl rfl rfl (by simp) (by decide) (by decide)⟩

/-- C3 witness: the first line item of order ord3 is fulfillable, but the
second matches no stock document, so the transition fails with the
no-stock error and the store cStW is unchanged — the decrement of the
first item is not applied. -/
theorem handleStatusUpdate_no_stock_witness :
    (∀ it ∈ [cItem1], itemFulfillable cStW.stocks it = true) ∧
    matchedStock cStW.stocks cItemNS = none ∧
    (handleStatusUpdate [cOrdNS] cStW "ord3" "Ready for Pickup" 7 =
        (cStW, .failure (noStockMsg cItemNS)) ∧
      noStockMsg cItemNS =
        "No stock found for " ++ cItemNS.productSize ++
          " with varieties " ++
          String.intercalate ", " cItemNS.productVarieties) :=
  ⟨by decide, by decide,
    handleStatusUpdate_no_stock [cOrdNS] cStW "ord3" 7 cOrdNS
      { id := "ord3", status := "Preparing Order"
        updatedAt := none, completedAt := none }
      [cItem1] [] cItemNS
      rfl rfl rfl rfl (by decide) (by decide)⟩

/-- C8, evaluating the code at the failing input.  Two concurrent Ready
for Pickup transitions on the distinct orders ord1 and ord2, each
requesting 3 from the same stock document s1 with quantity 5: because the
stock is read with a plain getDocs query instead of transaction.get, the
stock document is outside each transaction's validated read set, both
bodies see quantity 5, both commits validate (each read set holds only
its own order document), and both succeed — the final quantity is 2, one
decrement is lost, and two history entries both record previousStock 5
and currentStock 2, instead of exactly one transition succeeding and the
other failing with insufficient stock. -/
theorem concurrent_lost_update :
    (concurrentStatusUpdate cSt cOrd cOrd2 "Ready for Pickup" 7).2 =
        (true, true) ∧
    quantityOf
        (concurrentStatusUpdate cSt cOrd cOrd2 "Ready for Pickup" 7).1.stocks
        "s1" = some 2 ∧
    ((concurrentStatusUpdate cSt cOrd cOrd2 "Ready for Pickup" 7).1.stockHistory.map
        (fun e => (e.previousStock, e.currentStock))) = [(5, 2), (5, 2)] :=
  ⟨by decide, by decide, by decide⟩

/-- C6 counterexample.  Inserting the projection entry for cOrd at time 10
stores creation timestamp 10, but re-applying the same order state at time
20 overwrites the creation timestamp with the order creation field 5: the
creation timestamp of the entry is not preserved on update. -/
theorem saveTrackingOrder_overwrites_createdAt :
    ((saveTrackingOrder [] cOrd 10).map (fun e => e.createdAt)) = [10] ∧
    ((saveTrackingOrder (saveTrackingOrder [] cOrd 10) cOrd 20).map
        (fun e => e.createdAt)) = [5] ∧
    ((saveTrackingOrder (saveTrackingOrder [] cOrd 10) cOrd 20).map
        (fun e => e.createdAt)) ≠
      ((saveTrackingOrder [] cOrd 10).map (fun e => e.createdAt)) := by
  refine ⟨by decide, by decide, by decide⟩

/-- C6 amended.  The upsert is keyed by order id: starting from a
projection with no entry for the order, applying the same order state
twice leaves exactly one entry for that order id; the update overwrites
every field with values derived from the order — in particular the stored
creation timestamp becomes the order creation field, not the insert-time
server timestamp — and the update timestamp is refreshed to the second
application time. -/
theorem saveTrackingOrder_upsert_amended (tr : List TrackingOrderDoc)
    (o : Order) (t1 t2 : Nat)
    (h : tr.find? (fun e => e.orderId == o.id) = none) :
    saveTrackingOrder (saveTrackingOrder tr o t1) o t2 =
        tr ++ [mkTrackingOrder o t2] ∧
    (tr ++ [mkTrackingOrder o t2]).filter (fun e => e.orderId == o.id) =
        [mkTrackingOrder o t2] ∧
    (mkTrackingOrder o t2).createdAt = o.orderDetails.createdAt ∧
    (mkTrackingOrder o t2).updatedAt = t2 := by
  have hall : ∀ x ∈ tr, (x.orderId == o.id) = false := by
    intro x hx
    have := List.find?_eq_none.mp h x hx
    simpa using this
  have hs1 : saveTrackingOrder tr o t1 =
      tr ++ [{ mkTrackingOrder o t1 with createdAt := t1, updatedAt := t1 }] := by
    simp [saveTrackingOrder, h]
  refine ⟨?_, ?_, rfl, rfl⟩
  · rw [hs1]
    have hfind : (tr ++
        [{ mkTrackingOrder o t1 with createdAt := t1, updatedAt := t1 }]).find?
          (fun e => e.orderId == o.id) =
        some { mkTrackingOrder o t1 with createdAt := t1, updatedAt := t1 } := by
      rw [List.find?_append, List.find?_eq_none.mpr (fun x hx => by
        simp [hall x hx])]
      simp [mkTrackingOrder]
    have : saveTrackingOrder
        (tr ++ [{ mkTrackingOrder o t1 with createdAt := t1, updatedAt := t1 }])
        o t2 =
        updateFirst (fun e => e.orderId == o.id)
          (fun _ => { mkTrackingOrder o t2 with updatedAt := t2 })
          (tr ++ [{ mkTrackingOrder o t1 with createdAt := t1, updatedAt := t1 }]) := by
      simp [saveTrackingOrder, hfind]
    rw [this, updateFirst_append _ _ _ _ hall (by simp [mkTrackingOrder])]
    simp [mkTrackingOrder]
  · rw [List.filter_append]
    rw [List.filter_eq_nil_iff.mpr (fun x hx => by simp [hall x hx])]
    simp [mkTrackingOrder]

/-- C6 amended witness: the amended upsert theorem applied to the empty
projection and the concrete order cOrd at times 10 and 20. -/
theorem saveTrackingOrder_upsert_amended_witness :
    saveTrackingOrder (saveTrackingOrder [] cOrd 10) cOrd 20 =
        [mkTrackingOrder cOrd 20] ∧
    ([] ++ [mkTrackingOrder cOrd 20]).filter
        (fun e => e.orderId == cOrd.id) = [mkTrackingOrder cOrd 20] ∧
    (mkTrackingOrder cOrd 20).createdAt = cOrd.orderDetails.createdAt ∧
    (mkTrackingOrder cOrd 20).updatedAt = 20 := by
  have := saveTrackingOrder_upsert_amended [] cOrd 10 20 rfl
  simpa using this
